import Mathlib

/-!
Verification of the galeria-upload core: the ingestion-and-validation pipeline
(`server/index.js` `POST /api/upload` handler) and the hybrid search engine
(`POST /api/search` handler), together with the Gemini wrapper (`gemini.js`:
`analyzeImage`, `interpretSearch`, `calculateCost`).

The JavaScript source is shallowly embedded: JS strings become `String`,
JS arrays become `List`, SQLite tables become Lean lists of rows, JS numbers
used for money become `ℚ` (the cost formula is exact rational arithmetic in
the model), and the process-global slots `global.lastApiCost` /
`global.lastSearchCost` become an explicit field of the server state.
`Array.prototype.includes`-style substring tests are modelled with
`List.IsInfix` on the character lists; `toLowerCase` is modelled as ASCII
lower-casing, which agrees with the JS code and with SQLite's
(ASCII-case-insensitive) `LIKE` on the alphabets the program manipulates.
-/

/-- ASCII lower-casing, the model of `String.prototype.toLowerCase` and of the
case folding SQLite applies in `LIKE`.  (Implemented structurally over the
character list so that concrete inputs evaluate by `decide`.) -/
def lowerStr (s : String) : String := String.mk (s.toList.map Char.toLower)

/-- `pat` starts `hay` (character-list test, structurally recursive). -/
def leadsChars : List Char → List Char → Bool
  | [], _ => true
  | _ :: _, [] => false
  | p :: ps, h :: hs => p == h && leadsChars ps hs

/-- `pat` occurs contiguously somewhere in `hay`. -/
def containsChars : List Char → List Char → Bool
  | pat, [] => pat.isEmpty
  | pat, h :: hs => leadsChars pat (h :: hs) || containsChars pat hs

/-- Model of JS `hay.includes(pat)` (and of SQL `hay LIKE '%pat%'` after both
sides are lower-cased by the caller): `pat` occurs contiguously in `hay`. -/
def strIncludes (hay pat : String) : Bool :=
  containsChars pat.toList hay.toList

lemma leadsChars_eq_true_iff (p h : List Char) : leadsChars p h = true ↔ p <+: h := by
  induction p generalizing h with
  | nil => simp [leadsChars]
  | cons a ps ih =>
    cases h with
    | nil => simp [leadsChars]
    | cons b hs =>
      simp [leadsChars, Bool.and_eq_true, beq_iff_eq, ih, List.cons_prefix_cons]

lemma containsChars_eq_true_iff (p h : List Char) : containsChars p h = true ↔ p <:+: h := by
  induction h with
  | nil => simp [containsChars, List.isEmpty_iff]
  | cons b hs ih =>
    simp [containsChars, leadsChars_eq_true_iff, ih, List.infix_cons_iff]

lemma strIncludes_eq_true_iff (hay pat : String) :
    strIncludes hay pat = true ↔ pat.toList <:+: hay.toList :=
  containsChars_eq_true_iff pat.toList hay.toList

/-- Model of JS `String.prototype.trim` (drop leading and trailing
whitespace), structurally recursive. -/
def strTrim (s : String) : String :=
  String.mk (((s.toList.dropWhile Char.isWhitespace).reverse.dropWhile
    Char.isWhitespace).reverse)

/-- Split a character list at every character satisfying `p`, keeping empty
pieces (the semantics of splitting on single characters; the JS
`split(/\s+/)` differs from it only by empty pieces, which every caller in
the model filters away by token length). -/
def splitCore (p : Char → Bool) : List Char → List Char → List (List Char)
  | [], acc => [acc.reverse]
  | c :: cs, acc =>
    if p c then acc.reverse :: splitCore p cs [] else splitCore p cs (c :: acc)

/-- Model of `query.split(/\s+/)` up to empty pieces. -/
def strSplit (s : String) (p : Char → Bool) : List String :=
  (splitCore p s.toList []).map String.mk

/-- Model of Node's `path.extname` on a plain file name (no directory
separators): the suffix starting at the last dot, or `""` when there is no dot
or the only dot starts the name. -/
def extname (s : String) : String :=
  let cs := s.toList
  let afterDot := cs.reverse.takeWhile (fun c => c ≠ '.')
  if afterDot.length = cs.length then ""
  else if afterDot.length + 1 = cs.length then ""
  else String.mk ('.' :: afterDot.reverse)

/-! ## Keyword expansion (`gemini.js`, `analyzeImage`, lines 611-668)

The expansion block pads an under-populated keyword list.  The rule table
below is copied verbatim from the source's `additionalKeywords` branches and
`genericTerms` array. -/

def passaporteTerms : List String :=
  ["Passaporte", "Documento de Viagem", "Identificação Internacional",
   "Viagem Internacional", "Fronteira", "Imigração", "Nacionalidade", "Visto",
   "Entrada no País", "Saída do País", "Aeroporto", "Consulado"]

def identidadeTerms : List String :=
  ["Carteira de Identidade", "RG", "Registro Geral", "Documento de Identidade",
   "CPF", "Brasileiro", "Cidadão", "Nacional", "Identificação Pessoal"]

def comprovanteTerms : List String :=
  ["Comprovante", "Comprovação", "Evidência", "Prova Documental",
   "Documento Comprobatório", "Atestado", "Declaração"]

def residenciaTerms : List String :=
  ["Autorização de Residência", "Título de Residência", "Renovação de Residência",
   "Morada", "Endereço", "Domicílio", "Habitação", "Portugal", "AIMA", "SEF",
   "Imigração"]

def nifTerms : List String :=
  ["NIF", "Número de Identificação Fiscal", "Autoridade Tributária",
   "Portal das Finanças", "Certidão de Não Dívida", "AT"]

def segurancaTerms : List String :=
  ["Segurança Social", "Segurança Social Direta", "Certidão de Não Dívida",
   "Portal da Segurança Social", "Balcão de Atendimento"]

def formularioTerms : List String :=
  ["Formulário", "Formulário Online", "Portal Online", "Submissão Online",
   "Preenchimento", "Submeter"]

def subsistenciaTerms : List String :=
  ["Comprovativo de Meios de Subsistência", "Declarações Bancárias",
   "Recibos de Vencimento", "Contrato de Trabalho", "Meios Financeiros"]

def matriculaTerms : List String :=
  ["Comprovativo de Matrícula", "Estudante", "Instituição de Ensino",
   "Frequência Escolar", "Matrícula Escolar"]

def genericTerms : List String :=
  ["Documento Oficial", "Arquivo Digital", "Documento Escaneado",
   "Documento Original", "Documento Válido", "Assinado", "Carimbado", "Selado",
   "Foto Tipo Passe", "Fotografia", "Formulário Preenchido", "Certificado",
   "Registro Oficial", "Documento Português", "Processo Burocrático"]

/-- The `else if` chain of `analyzeImage` choosing the category-specific
terms, keyed by substring tests on the already lower-cased document type
(`docType = parsed.documentType?.toLowerCase() || 'imagem geral'`). -/
def categoryTerms (docType : String) : List String :=
  if strIncludes docType "passaporte" then passaporteTerms
  else if strIncludes docType "identidade" || strIncludes docType "rg" then identidadeTerms
  else if strIncludes docType "comprovante" then comprovanteTerms
  else if strIncludes docType "residência" || strIncludes docType "morada" ||
          strIncludes docType "alojamento" then residenciaTerms
  else if strIncludes docType "nif" || strIncludes docType "fiscal" then nifTerms
  else if strIncludes docType "segurança social" || strIncludes docType "seguranca" then segurancaTerms
  else if strIncludes docType "formulário" || strIncludes docType "formulario" then formularioTerms
  else if strIncludes docType "meios" || strIncludes docType "subsistência" ||
          strIncludes docType "subsistencia" then subsistenciaTerms
  else if strIncludes docType "matrícula" || strIncludes docType "matricula" ||
          strIncludes docType "estudante" then matriculaTerms
  else []

/-- The candidate loop of `analyzeImage`:
`for (const term of [...additionalKeywords, ...genericTerms]) {
   if (keywords.length >= 20) break;
   if (!keywords.some(k => k.toLowerCase().includes(term.toLowerCase()))) keywords.push(term) }`. -/
def fillKeywords : List String → List String → List String
  | ks, [] => ks
  | ks, t :: rest =>
    if 20 ≤ ks.length then ks
    else if ks.any (fun k => strIncludes (lowerStr k) (lowerStr t)) then
      fillKeywords ks rest
    else fillKeywords (ks ++ [t]) rest

/-- The document type actually used to key the rule table:
`parsed.documentType?.toLowerCase() || 'imagem geral'`. -/
def docTypeKey (documentType : String) : String :=
  if lowerStr documentType = "" then "imagem geral" else lowerStr documentType

/-- The whole expansion block of `analyzeImage` (lines 624-668) followed by
the final `keywords.slice(0, 30)` cap. -/
def expandKeywords (keywords : List String) (documentType : String) : List String :=
  let ks :=
    if keywords.length < 20 then
      fillKeywords keywords (categoryTerms (docTypeKey documentType) ++ genericTerms)
    else keywords
  ks.take 30

/-! Specification-side rendering of the §4.2 contract, used to compare the
source translation against the spec's words for claim C4:
"if `len(keywords) >= 20`, return unchanged (capped at 30)…  Otherwise append
… skipping any candidate whose lower-cased form is already a substring of an
existing keyword, until the list reaches 20 or the candidate pool is
exhausted." -/

/-- Modelled from the spec's words for C4 (the claim-side algorithm): append
the candidates in order, skipping a candidate when its lower-cased form is
already a substring of an existing keyword (lower-cased), stopping once the
list has 20 entries or the pool is exhausted. -/
def appendCandidatesSpec : List String → List String → List String
  | ks, [] => ks
  | ks, c :: cs =>
    if 20 ≤ ks.length then ks
    else if ∃ k ∈ ks, (lowerStr c).toList <:+: (lowerStr k).toList then
      appendCandidatesSpec ks cs
    else appendCandidatesSpec (ks ++ [c]) cs

/-- Modelled from the spec's words for C4: the full expansion contract. -/
def expandKeywordsSpec (keywords : List String) (documentType : String) : List String :=
  if 20 ≤ keywords.length then keywords.take 30
  else appendCandidatesSpec keywords (categoryTerms (docTypeKey documentType) ++ genericTerms)

lemma fillKeywords_eq_appendCandidatesSpec (cands : List String) :
    ∀ ks : List String, fillKeywords ks cands = appendCandidatesSpec ks cands := by
  induction cands with
  | nil => intro ks; rfl
  | cons c cs ih =>
    intro ks
    simp only [fillKeywords, appendCandidatesSpec]
    by_cases h20 : 20 ≤ ks.length
    · rw [if_pos h20, if_pos h20]
    · have hiff : ((ks.any fun k => strIncludes (lowerStr k) (lowerStr c)) = true) ↔
          ∃ k ∈ ks, (lowerStr c).toList <:+: (lowerStr k).toList := by
        simp [List.any_eq_true, strIncludes_eq_true_iff]
      rw [if_neg h20, if_neg h20]
      by_cases hskip : ∃ k ∈ ks, (lowerStr c).toList <:+: (lowerStr k).toList
      · rw [if_pos (hiff.mpr hskip), if_pos hskip, ih]
      · rw [if_neg (fun h => hskip (hiff.mp h)), if_neg hskip, ih]

lemma fillKeywords_length_le (cands : List String) :
    ∀ ks : List String, ks.length ≤ 20 → (fillKeywords ks cands).length ≤ 20 := by
  induction cands with
  | nil => intro ks h; simpa [fillKeywords] using h
  | cons c cs ih =>
    intro ks h
    by_cases h20 : 20 ≤ ks.length
    · simpa [fillKeywords, h20] using h
    · by_cases hskip : ks.any (fun k => strIncludes (lowerStr k) (lowerStr c)) = true
      · simpa [fillKeywords, h20, hskip] using ih ks h
      · have hb : ks.any (fun k => strIncludes (lowerStr k) (lowerStr c)) = false := by
          simpa using hskip
        have hlen : (ks ++ [c]).length ≤ 20 := by
          simp only [List.length_append, List.length_singleton]
          omega
        simpa [fillKeywords, h20, hb] using ih (ks ++ [c]) hlen

lemma expandKeywords_eq_spec (ks : List String) (t : String) :
    expandKeywords ks t = expandKeywordsSpec ks t := by
  by_cases h : 20 ≤ ks.length
  · have hlt : ¬ ks.length < 20 := by omega
    simp [expandKeywords, expandKeywordsSpec, h, hlt]
  · have hlt : ks.length < 20 := by omega
    have hle : ks.length ≤ 20 := by omega
    have hfill := fillKeywords_length_le (categoryTerms (docTypeKey t) ++ genericTerms) ks hle
    have htake : (fillKeywords ks (categoryTerms (docTypeKey t) ++ genericTerms)).take 30 =
        fillKeywords ks (categoryTerms (docTypeKey t) ++ genericTerms) :=
      List.take_of_length_le (by omega)
    unfold expandKeywords expandKeywordsSpec
    rw [if_pos hlt, if_neg h, htake, fillKeywords_eq_appendCandidatesSpec]

/-! ## Cost accounting (`gemini.js` lines 432-464)

Money is modelled exactly with `ℚ`; the source's floating-point literals
`0.075 / 1000000` and `0.30 / 1000000` become the rationals `3/40000000` and
`3/10000000`. -/

/-- The static pricing table `PRICING` (USD per token: input, output). -/
def PRICING : List (String × (ℚ × ℚ)) :=
  [("gemini-2.5-flash", (3 / 40000000, 3 / 10000000)),
   ("gemini-1.5-flash", (3 / 40000000, 3 / 10000000))]

/-- `PRICING[model] || PRICING['gemini-2.5-flash']`: table lookup with the
default entry for unknown models. -/
def pricingFor (model : String) : ℚ × ℚ :=
  ((PRICING.lookup model).getD ((PRICING.lookup "gemini-2.5-flash").getD (0, 0)))

/-- `USD_TO_BRL = 5.0`, the fixed exchange-rate constant. -/
def USD_TO_BRL : ℚ := 5

structure CostCalc where
  inputCost : ℚ
  outputCost : ℚ
  totalCostUSD : ℚ
  totalCostBRL : ℚ
  inputTokens : ℕ
  outputTokens : ℕ
deriving DecidableEq

/-- `calculateCost(model, inputTokens, outputTokens)` from `gemini.js`. -/
def calculateCost (model : String) (inputTokens outputTokens : ℕ) : CostCalc :=
  let pricing := pricingFor model
  let inputCost : ℚ := inputTokens * pricing.1
  let outputCost : ℚ := outputTokens * pricing.2
  { inputCost := inputCost
    outputCost := outputCost
    totalCostUSD := inputCost + outputCost
    totalCostBRL := (inputCost + outputCost) * USD_TO_BRL
    inputTokens := inputTokens
    outputTokens := outputTokens }

/-- The payload `analyzeImage` stashes in `global.lastApiCost` (the opaque
`details` JSON string is diagnostic only and is not modelled). -/
structure CostInfo where
  inputTokens : ℕ
  outputTokens : ℕ
  costUSD : ℚ
  costBRL : ℚ
  model : String
deriving DecidableEq

/-! ## Ingestion pipeline (`server/index.js` lines 135-292)

One upload request is a batch of files.  Multer has already written every
file of the batch to the uploads directory when the handler body starts, so
`handleUpload` first extends the storage with all the batch's file names and
then runs the per-file loop.  The Gemini call of each file is modelled by an
oracle `AiOutcome` attached to the file: either the parsed response plus its
token usage, or a thrown error (with the cost payload that `analyzeImage`
had already written to `global.lastApiCost` when the failure happened after
`generateContent` returned, e.g. a JSON parse failure). -/

/-- A multer-stored file of the request (`req.files` entry). -/
structure FileUpload where
  filename : String
  originalname : String
  mimetype : String
  size : ℕ
deriving DecidableEq

/-- The ambient inputs of `generateAIName`: the value of
`Math.floor(Math.random() * typeKeyword.length)` is determined by `randIdx`
modulo the list length, `date` is `new Date().toISOString().split('T')[0]`
and `time` is `Date.now().toString().slice(-6)`. -/
structure NameEnv where
  randIdx : ℕ
  date : String
  time : String
deriving DecidableEq

/-- The `keywords` table of `generateAIName`, with the `['imagem', 'image']`
default for mime types outside the table. -/
def typeKeywordList (mimetype : String) : List String :=
  if mimetype = "image/jpeg" then ["foto", "imagem", "photo"]
  else if mimetype = "image/png" then ["imagem", "grafico", "image"]
  else if mimetype = "image/gif" then ["animacao", "gif", "animation"]
  else if mimetype = "image/webp" then ["imagem", "webp", "image"]
  else ["imagem", "image"]

/-- `generateAIName(originalName, mimetype)` from `server/index.js`: a random
keyword for the mime type, the date, the time and the lower-cased extension
of the original name. -/
def generateAIName (originalName mimetype : String) (env : NameEnv) : String :=
  let ext := lowerStr (extname originalName)
  let ks := typeKeywordList mimetype
  let randomKeyword := ks.getD (env.randIdx % ks.length) "imagem"
  randomKeyword ++ "-" ++ env.date ++ "-" ++ env.time ++ ext

/-- The parsed fields of a successful `analyzeImage` Gemini response, after
JSON decoding: `keywords` is the array-normalised `parsed.keywords`,
`documentType` is `parsed.documentType` (`""` when absent), and the token
counters already carry the `|| 0` defaults of the source. -/
structure AnalysisOut where
  description : String
  keywords : List String
  documentType : String
  country : Option String
  typicalUse : String
  inputTokens : ℕ
  outputTokens : ℕ
deriving DecidableEq

/-- The guard `if (keywords.length === 0 && parsed.documentType &&
parsed.documentType !== 'imagem geral') keywords = [parsed.documentType.toLowerCase()]`. -/
def normalizeKeywords (keywords : List String) (documentType : String) : List String :=
  if keywords.isEmpty && !(documentType == "") && !(documentType == "imagem geral") then
    [lowerStr documentType]
  else keywords

/-- The keyword list `analyzeImage` returns for a parsed response: the
normalisation guard followed by the expansion block and the 30-entry cap. -/
def analyzedKeywords (a : AnalysisOut) : List String :=
  expandKeywords (normalizeKeywords a.keywords a.documentType) a.documentType

/-- The `global.lastApiCost` payload written by `analyzeImage` on the success
path (the model is hard-wired to `'gemini-2.5-flash'`). -/
def analysisCostInfo (a : AnalysisOut) : CostInfo :=
  let c := calculateCost "gemini-2.5-flash" a.inputTokens a.outputTokens
  { inputTokens := a.inputTokens
    outputTokens := a.outputTokens
    costUSD := c.totalCostUSD
    costBRL := c.totalCostBRL
    model := "gemini-2.5-flash" }

/-- Outcome of the `analyzeImage` call for one file: success with the parsed
response, or a thrown error carrying the `global.lastApiCost` write that had
already happened when the failure occurred after `generateContent` (the
`lateCost` field; `none` models early failures such as a missing API key). -/
inductive AiOutcome where
  | ok (a : AnalysisOut)
  | fail (msg : String) (lateCost : Option CostInfo)
deriving DecidableEq

/-- One file of an upload batch together with the scenario data that decides
its processing: the ambient name inputs and the Gemini outcome. -/
structure FileJob where
  file : FileUpload
  env : NameEnv
  outcome : AiOutcome
deriving DecidableEq

/-- A row of the `images` table (`created_at` is an abstract monotone
timestamp; the pipeline stamps it with the row id). -/
structure DocRow where
  id : ℕ
  filename : String
  originalname : String
  mimetype : String
  size : ℕ
  created_at : ℕ
  ai_description : String
  ai_keywords : String
  ai_document_type : String
  ai_country : Option String
  ai_typical_use : String
deriving DecidableEq

/-- A row of the `api_costs` table. -/
structure CostRow where
  id : ℕ
  operation_type : String
  operation_id : Option ℕ
  input_tokens : ℕ
  output_tokens : ℕ
  cost_usd : ℚ
  cost_brl : ℚ
  model : String
deriving DecidableEq

/-- The shared server state: the uploads directory, the two SQLite tables,
the id counters, and the process-global slot `global.lastApiCost`. -/
structure ServerState where
  storage : List String
  docs : List DocRow
  costs : List CostRow
  nextDocId : ℕ
  nextCostId : ℕ
  lastApiCost : Option CostInfo
deriving DecidableEq

/-- The error message built by the `aiError` catch of the upload handler. -/
def analysisErrMsg (msg : String) : String :=
  "Falha na análise por IA: " ++ msg ++
    ". O arquivo não foi salvo. Certifique-se de que a GEMINI_API_KEY_AI está configurada corretamente."

/-- The message of the error thrown when the keyword validation fails. -/
def invalidKeywordsMsg (n : ℕ) : String :=
  "Análise da IA não retornou keywords suficientes. Recebidas: " ++ toString n ++
    ", esperado: pelo menos 20"

/-- `hasValidKeywords`: `keywords.length >= 20 && keywords.some(k => k && k.trim().length > 0)`. -/
def validKeywords (ks : List String) : Bool :=
  decide (20 ≤ ks.length) && ks.any (fun k => !(strTrim k == ""))

/-- Result of processing one file of the batch: either the handler returned
the HTTP 400 error response (the loop aborts), or the file was persisted. -/
inductive FileStep where
  | failed (st : ServerState) (msg : String)
  | persisted (st : ServerState) (row : DocRow)
deriving DecidableEq

/-- One iteration of the upload loop for one file, faithful to the order of
effects in the source: `analyzeImage` (which writes `global.lastApiCost` when
it reaches the point after `generateContent`), the read-and-clear of the slot,
the keyword validation (whose failure is caught by the same `aiError` catch,
deleting the stored file and returning the error response), the `images`
insert, and the conditional `api_costs` insert. -/
def processFile (st : ServerState) (job : FileJob) : FileStep :=
  match job.outcome with
  | .fail msg lateCost =>
      let st1 :=
        match lateCost with
        | some c => { st with lastApiCost := some c }
        | none => st
      .failed { st1 with storage := st1.storage.erase job.file.filename }
        (analysisErrMsg msg)
  | .ok a =>
      let st1 := { st with lastApiCost := some (analysisCostInfo a) }
      let costInfo := st1.lastApiCost
      let st2 := { st1 with lastApiCost := none }
      let ks := analyzedKeywords a
      if validKeywords ks then
        let aiName := generateAIName job.file.originalname job.file.mimetype job.env
        let row : DocRow :=
          { id := st2.nextDocId
            filename := job.file.filename
            originalname := aiName
            mimetype := job.file.mimetype
            size := job.file.size
            created_at := st2.nextDocId
            ai_description := a.description
            ai_keywords := String.intercalate ", " ks
            ai_document_type := if a.documentType = "" then "imagem geral" else a.documentType
            ai_country := a.country.bind (fun c => if c = "" then none else some c)
            ai_typical_use := a.typicalUse }
        let st3 := { st2 with docs := st2.docs ++ [row], nextDocId := st2.nextDocId + 1 }
        let st4 :=
          match costInfo with
          | some c =>
              { st3 with
                costs := st3.costs ++
                  [{ id := st3.nextCostId
                     operation_type := "image_analysis"
                     operation_id := some row.id
                     input_tokens := c.inputTokens
                     output_tokens := c.outputTokens
                     cost_usd := c.costUSD
                     cost_brl := c.costBRL
                     model := c.model }]
                nextCostId := st3.nextCostId + 1 }
          | none => st3
        .persisted st4 row
      else
        .failed { st2 with storage := st2.storage.erase job.file.filename }
          (analysisErrMsg (invalidKeywordsMsg ks.length))

/-- Response of the whole `POST /api/upload` call. -/
inductive UploadResult where
  | ok (st : ServerState) (images : List DocRow)
  | err (st : ServerState) (msg : String)
deriving DecidableEq

/-- The `for (const file of files)` loop: abort with the error response on the
first failing file, otherwise accumulate the response entries. -/
def uploadLoop (st : ServerState) (acc : List DocRow) : List FileJob → UploadResult
  | [] => .ok st acc
  | job :: rest =>
    match processFile st job with
    | .failed st2 msg => .err st2 msg
    | .persisted st2 row => uploadLoop st2 (acc ++ [row]) rest

/-- The full `POST /api/upload` handler: multer stores every file of the
batch before the handler body runs, then the per-file loop processes them in
order. -/
def handleUpload (st : ServerState) (jobs : List FileJob) : UploadResult :=
  uploadLoop { st with storage := st.storage ++ jobs.map (fun j => j.file.filename) } [] jobs

/-- Whether a job aborts the batch: a thrown Gemini error, or a keyword list
failing `hasValidKeywords`.  The branch taken by `processFile` depends only on
the job, never on the server state. -/
def jobFails (job : FileJob) : Bool :=
  match job.outcome with
  | .fail _ _ => true
  | .ok a => !(validKeywords (analyzedKeywords a))

def stepState : FileStep → ServerState
  | .failed st _ => st
  | .persisted st _ => st

def stepIsPersisted : FileStep → Bool
  | .failed _ _ => false
  | .persisted _ _ => true

def stepRow : FileStep → Option DocRow
  | .failed _ _ => none
  | .persisted _ row => some row

def resState : UploadResult → ServerState
  | .ok st _ => st
  | .err st _ => st

def resIsErr : UploadResult → Bool
  | .ok _ _ => false
  | .err _ _ => true

def resMsg : UploadResult → Option String
  | .ok _ _ => none
  | .err _ msg => some msg

def resImages : UploadResult → List DocRow
  | .ok _ imgs => imgs
  | .err _ _ => []

/-! ## Search (`server/index.js` lines 309-427, `gemini.js` lines 697-825) -/

/-- An entry of the interpreter's `documents` list (a "required document"). -/
structure ReqDoc where
  id : Option ℕ
  name : String
  hasDocument : Bool
  howToGet : Option String
deriving DecidableEq

/-- The caller-visible search interpretation.  `none` fields model JS
`undefined` (the degraded `getBasicSearchInterpretation` object carries no
`topic` and no `documents` key). -/
structure Interp where
  topic : Option String
  searchTerms : Option (List String)
  matchingDocIds : Option (List ℕ)
  documents : Option (List ReqDoc)
deriving DecidableEq

/-- `getBasicSearchInterpretation(query)`: lower-case the query, split on
whitespace, drop tokens of length ≤ 2; no ids, no documents. -/
def getBasicSearchInterpretation (query : String) : Interp :=
  { topic := none
    searchTerms := some ((strSplit (lowerStr query) (fun c => c.isWhitespace)).filter
      (fun t => 2 < t.length))
    matchingDocIds := some []
    documents := none }

/-- `interpretSearch(userQuery, availableDocuments)` as seen by the caller:
the Gemini call is an oracle returning `some` parsed interpretation or `none`
for any failure (missing API key, thrown call, unparseable response); every
failure path returns `getBasicSearchInterpretation` and never throws. -/
def interpretSearch (query : String) (ai : Option Interp) : Interp :=
  match ai with
  | some it => it
  | none => getBasicSearchInterpretation query

/-! ### SQLite `LIKE`

The search terms are bound unescaped into `LIKE '%' || term || '%'`, so a
`%` or `_` occurring inside a term is a live SQLite wildcard: `%` matches any
(possibly empty) character sequence, `_` matches exactly one character, and
every other character compares ASCII-case-insensitively.  The matcher below
models exactly that.  It recurses on a fuel argument (the standard measure
`|pattern| + |text|` strictly decreases at every step, so the canonical fuel
`|pattern| + |text| + 1` never runs out) to stay structurally recursive and
hence evaluable on concrete inputs. -/

/-- Fuelled SQLite `LIKE` matcher over character lists: does the whole
pattern match the whole text? -/
def likeCharsF : Nat → List Char → List Char → Bool
  | 0, _, _ => false
  | _ + 1, [], t => t.isEmpty
  | fuel + 1, p :: ps, [] => p == '%' && likeCharsF fuel ps []
  | fuel + 1, p :: ps, c :: cs =>
    if p == '%' then likeCharsF fuel ps (c :: cs) || likeCharsF fuel (p :: ps) cs
    else if p == '_' then likeCharsF fuel ps cs
    else (Char.toLower p == Char.toLower c) && likeCharsF fuel ps cs

/-- SQLite `LIKE`: `sqlLike pattern text` with the canonical (sufficient)
fuel. -/
def sqlLike (ps t : List Char) : Bool :=
  likeCharsF (ps.length + t.length + 1) ps t

/-- The pattern the source builds for one term: `'%' + term + '%'` with the
term's own characters left unescaped. -/
def sqlLikePattern (term : String) : List Char :=
  '%' :: term.toList ++ ['%']

lemma likeCharsF_fuel_congr (f : Nat) : ∀ (g : Nat) (ps t : List Char),
    ps.length + t.length < f → ps.length + t.length < g →
    likeCharsF f ps t = likeCharsF g ps t := by
  induction f with
  | zero => intro g ps t hf _; omega
  | succ f ih =>
    intro g ps t hf hg
    cases g with
    | zero => omega
    | succ g =>
      match ps, t with
      | [], t => rfl
      | p :: ps, [] =>
        simp only [likeCharsF]
        rw [ih g ps [] (by simp at hf ⊢; omega) (by simp at hg ⊢; omega)]
      | p :: ps, c :: cs =>
        simp only [likeCharsF]
        rw [ih g ps (c :: cs) (by simp at hf ⊢; omega) (by simp at hg ⊢; omega),
          ih g (p :: ps) cs (by simp at hf ⊢; omega) (by simp at hg ⊢; omega),
          ih g ps cs (by simp at hf ⊢; omega) (by simp at hg ⊢; omega)]

lemma sqlLike_nil_eq (t : List Char) : sqlLike [] t = t.isEmpty := rfl

lemma sqlLike_cons_nil_eq (p : Char) (ps : List Char) :
    sqlLike (p :: ps) [] = (p == '%' && sqlLike ps []) := rfl

lemma sqlLike_cons_cons_eq (p : Char) (ps : List Char) (c : Char) (cs : List Char) :
    sqlLike (p :: ps) (c :: cs) =
      (if p == '%' then sqlLike ps (c :: cs) || sqlLike (p :: ps) cs
       else if p == '_' then sqlLike ps cs
       else (Char.toLower p == Char.toLower c) && sqlLike ps cs) := by
  have hfuel : (p :: ps).length + (c :: cs).length + 1 = ps.length + cs.length + 2 + 1 := by
    simp only [List.length_cons]
    omega
  unfold sqlLike
  rw [hfuel]
  simp only [likeCharsF]
  rw [likeCharsF_fuel_congr (ps.length + cs.length + 2)
      (ps.length + (c :: cs).length + 1) ps (c :: cs)
      (by simp only [List.length_cons]; omega) (by omega),
    likeCharsF_fuel_congr (ps.length + cs.length + 2)
      ((p :: ps).length + cs.length + 1) (p :: ps) cs
      (by simp only [List.length_cons]; omega)
      (by simp only [List.length_cons]; omega),
    likeCharsF_fuel_congr (ps.length + cs.length + 2)
      (ps.length + cs.length + 1) ps cs (by omega) (by omega)]

lemma sqlLike_percent_any (t : List Char) : sqlLike ['%'] t = true := by
  induction t with
  | nil => rfl
  | cons c cs ih =>
    rw [sqlLike_cons_cons_eq]
    simp [ih]

lemma sqlLike_noWild_append_percent (ps : List Char)
    (hp : '%' ∉ ps) (hu : '_' ∉ ps) :
    ∀ t : List Char,
      sqlLike (ps ++ ['%']) t = leadsChars (ps.map Char.toLower) (t.map Char.toLower) := by
  induction ps with
  | nil =>
    intro t
    simpa [leadsChars] using sqlLike_percent_any t
  | cons p ps ih =>
    have hp2 : '%' ∉ ps := fun h => hp (List.mem_cons_of_mem _ h)
    have hu2 : '_' ∉ ps := fun h => hu (List.mem_cons_of_mem _ h)
    have hpne : (p == '%') = false := by
      simp only [beq_eq_false_iff_ne]
      exact fun h => hp (h ▸ List.mem_cons_self p ps)
    have hune : (p == '_') = false := by
      simp only [beq_eq_false_iff_ne]
      exact fun h => hu (h ▸ List.mem_cons_self p ps)
    intro t
    cases t with
    | nil => simp [sqlLike_cons_nil_eq, hpne, leadsChars]
    | cons c cs =>
      rw [List.cons_append, sqlLike_cons_cons_eq]
      simp [hpne, hune, leadsChars, ih hp2 hu2 cs]

lemma sqlLike_percent_cons_iff (qs t : List Char) :
    sqlLike ('%' :: qs) t = true ↔ ∃ n, sqlLike qs (t.drop n) = true := by
  induction t with
  | nil =>
    constructor
    · intro h
      exact ⟨0, by simpa [sqlLike_cons_nil_eq] using h⟩
    · rintro ⟨n, h⟩
      simp only [List.drop_nil] at h
      simpa [sqlLike_cons_nil_eq] using h
  | cons c cs ih =>
    rw [sqlLike_cons_cons_eq]
    simp only [beq_self_eq_true, if_true, Bool.or_eq_true, ih]
    constructor
    · rintro (h | ⟨n, h⟩)
      · exact ⟨0, h⟩
      · exact ⟨n + 1, h⟩
    · rintro ⟨n, h⟩
      cases n with
      | zero => exact Or.inl h
      | succ n => exact Or.inr ⟨n, h⟩

lemma containsChars_iff_exists_drop (pat : List Char) (txt : List Char) :
    containsChars pat txt = true ↔ ∃ n, leadsChars pat (txt.drop n) = true := by
  induction txt with
  | nil =>
    cases pat with
    | nil => simp [containsChars, leadsChars]
    | cons p ps => simp [containsChars, leadsChars]
  | cons h hs ih =>
    simp only [containsChars, Bool.or_eq_true, ih]
    constructor
    · rintro (hl | ⟨n, hn⟩)
      · exact ⟨0, hl⟩
      · exact ⟨n + 1, hn⟩
    · rintro ⟨n, hn⟩
      cases n with
      | zero => exact Or.inl hn
      | succ n => exact Or.inr ⟨n, hn⟩

/-- For a term containing neither `%` nor `_`, the unescaped
`LIKE '%' || term || '%'` condition is exactly the ASCII-case-insensitive
substring test of the original claim. -/
lemma sqlLike_pattern_noWild (t s : String)
    (hp : '%' ∉ t.toList) (hu : '_' ∉ t.toList) :
    sqlLike (sqlLikePattern t) s.toList = strIncludes (lowerStr s) (lowerStr t) := by
  have h1 : (sqlLike (sqlLikePattern t) s.toList = true) ↔
      (strIncludes (lowerStr s) (lowerStr t) = true) := by
    unfold sqlLikePattern
    rw [List.cons_append, sqlLike_percent_cons_iff]
    have hstep : ∀ x : List Char,
        sqlLike (t.toList ++ ['%']) x =
          leadsChars (t.toList.map Char.toLower) (x.map Char.toLower) :=
      sqlLike_noWild_append_percent t.toList hp hu
    constructor
    · rintro ⟨n, hn⟩
      rw [hstep, List.map_drop] at hn
      exact (strIncludes_eq_true_iff _ _).mpr
        ((containsChars_eq_true_iff _ _).mp
          ((containsChars_iff_exists_drop _ _).mpr ⟨n, hn⟩))
    · intro h
      have := (containsChars_iff_exists_drop
        (t.toList.map Char.toLower) (s.toList.map Char.toLower)).mp
        ((containsChars_eq_true_iff _ _).mpr ((strIncludes_eq_true_iff _ _).mp h))
      obtain ⟨n, hn⟩ := this
      exact ⟨n, by rw [hstep, List.map_drop]; exact hn⟩
  cases hb : sqlLike (sqlLikePattern t) s.toList <;>
    cases hc : strIncludes (lowerStr s) (lowerStr t) <;>
    simp_all

/-- One document matches one term: the model of
`(ai_keywords LIKE ? OR ai_description LIKE ? OR ai_document_type LIKE ? OR originalname LIKE ?)`
with the bound parameter `'%' + term + '%'` left unescaped, so `%` and `_`
inside the term act as SQLite wildcards and the comparison is
ASCII-case-insensitive. -/
def likeMatch (d : DocRow) (term : String) : Bool :=
  sqlLike (sqlLikePattern term) d.ai_keywords.toList ||
  sqlLike (sqlLikePattern term) d.ai_description.toList ||
  sqlLike (sqlLikePattern term) d.ai_document_type.toList ||
  sqlLike (sqlLikePattern term) d.originalname.toList

/-- The LIKE fallback branch. `docs` is the table ordered most-recent-first;
with no terms no condition is built and the result stays `[]`. -/
def fallbackSearch (docs : List DocRow) (terms : List String) : List DocRow :=
  if terms.isEmpty then []
  else docs.filter (fun d => terms.any (likeMatch d))

/-- The two-tier match resolution of `POST /api/search` over the corpus
`docs` (ordered most-recent-first): the ID branch when the interpretation has
a non-empty `matchingDocIds`, else the LIKE fallback over
`interpretation.searchTerms || [query]`. -/
def resolveSearch (docs : List DocRow) (query : String) (it : Interp) : List DocRow :=
  match it.matchingDocIds with
  | some ids =>
      if ids.isEmpty then fallbackSearch docs (it.searchTerms.getD [query])
      else docs.filter (fun d => decide (d.id ∈ ids))
  | none => fallbackSearch docs (it.searchTerms.getD [query])

/-- Most-recent-first ordering of two document rows. -/
def createdDesc (a b : DocRow) : Prop := b.created_at ≤ a.created_at

instance : DecidableRel createdDesc := fun a b =>
  inferInstanceAs (Decidable (b.created_at ≤ a.created_at))

/-! ## Helper lemmas about the pipeline step -/

/-- The row inserted for a validated file. -/
def uploadRow (st : ServerState) (f : FileUpload) (env : NameEnv) (a : AnalysisOut) : DocRow :=
  { id := st.nextDocId
    filename := f.filename
    originalname := generateAIName f.originalname f.mimetype env
    mimetype := f.mimetype
    size := f.size
    created_at := st.nextDocId
    ai_description := a.description
    ai_keywords := String.intercalate ", " (analyzedKeywords a)
    ai_document_type := if a.documentType = "" then "imagem geral" else a.documentType
    ai_country := a.country.bind (fun c => if c = "" then none else some c)
    ai_typical_use := a.typicalUse }

/-- The `api_costs` row inserted for a validated file. -/
def uploadCostRow (st : ServerState) (a : AnalysisOut) : CostRow :=
  { id := st.nextCostId
    operation_type := "image_analysis"
    operation_id := some st.nextDocId
    input_tokens := a.inputTokens
    output_tokens := a.outputTokens
    cost_usd := (analysisCostInfo a).costUSD
    cost_brl := (analysisCostInfo a).costBRL
    model := "gemini-2.5-flash" }

lemma processFile_ok_valid (st : ServerState) (f : FileUpload) (env : NameEnv)
    (a : AnalysisOut) (hvalid : validKeywords (analyzedKeywords a) = true) :
    processFile st ⟨f, env, .ok a⟩ = .persisted
      { storage := st.storage
        docs := st.docs ++ [uploadRow st f env a]
        costs := st.costs ++ [uploadCostRow st a]
        nextDocId := st.nextDocId + 1
        nextCostId := st.nextCostId + 1
        lastApiCost := none }
      (uploadRow st f env a) := by
  simp [processFile, hvalid, uploadRow, uploadCostRow, analysisCostInfo]

lemma processFile_ok_invalid (st : ServerState) (f : FileUpload) (env : NameEnv)
    (a : AnalysisOut) (hvalid : validKeywords (analyzedKeywords a) = false) :
    processFile st ⟨f, env, .ok a⟩ = .failed
      { st with storage := st.storage.erase f.filename, lastApiCost := none }
      (analysisErrMsg (invalidKeywordsMsg (analyzedKeywords a).length)) := by
  simp [processFile, hvalid]

lemma processFile_fail (st : ServerState) (f : FileUpload) (env : NameEnv)
    (msg : String) (lateCost : Option CostInfo) :
    processFile st ⟨f, env, .fail msg lateCost⟩ = .failed
      { st with storage := st.storage.erase f.filename,
                lastApiCost := (match lateCost with
                                | some c => some c
                                | none => st.lastApiCost) }
      (analysisErrMsg msg) := by
  cases lateCost <;> rfl

lemma uploadLoop_first_failure (bad : FileJob) (rest : List FileJob)
    (hbad : jobFails bad = true) :
    ∀ (pre : List FileJob) (st : ServerState) (acc : List DocRow),
      (∀ j ∈ pre, jobFails j = false) →
      resIsErr (uploadLoop st acc (pre ++ bad :: rest)) = true ∧
      (resState (uploadLoop st acc (pre ++ bad :: rest))).docs.map (fun r => r.id) =
        st.docs.map (fun r => r.id) ++ List.range' st.nextDocId pre.length ∧
      (resState (uploadLoop st acc (pre ++ bad :: rest))).storage =
        st.storage.erase bad.file.filename := by
  intro pre
  induction pre with
  | nil =>
    intro st acc _
    obtain ⟨f, env, outcome⟩ := bad
    cases outcome with
    | fail msg lateCost =>
      rw [List.nil_append]
      simp [uploadLoop, processFile_fail, resIsErr, resState]
    | ok a =>
      have hv : validKeywords (analyzedKeywords a) = false := by
        simpa [jobFails] using hbad
      rw [List.nil_append]
      simp [uploadLoop, processFile_ok_invalid _ _ _ _ hv, resIsErr, resState]
  | cons j pre ih =>
    intro st acc hpre
    have hj : jobFails j = false := hpre j (List.mem_cons_self j pre)
    obtain ⟨f, env, outcome⟩ := j
    cases outcome with
    | fail msg lateCost => simp [jobFails] at hj
    | ok a =>
      have hv : validKeywords (analyzedKeywords a) = true := by
        simpa [jobFails] using hj
      have hstep := processFile_ok_valid st f env a hv
      have hrest : ∀ x ∈ pre, jobFails x = false := fun x hx =>
        hpre x (List.mem_cons_of_mem _ hx)
      rw [List.cons_append]
      simp only [uploadLoop, hstep]
      obtain ⟨h1, h2, h3⟩ := ih _ _ hrest
      refine ⟨h1, ?_, by simpa using h3⟩
      rw [h2]
      simp [uploadRow, List.range'_succ, List.append_assoc]

/-! ## Concrete example data used by witnesses and counterexamples -/

def exKw20 : List String :=
  ["k01", "k02", "k03", "k04", "k05", "k06", "k07", "k08", "k09", "k10",
   "k11", "k12", "k13", "k14", "k15", "k16", "k17", "k18", "k19", "k20"]

/-- A well-behaved Gemini analysis: 20 non-empty keywords. -/
def exAnalysis : AnalysisOut :=
  { description := "passaporte português"
    keywords := exKw20
    documentType := "passaporte"
    country := some "Portugal"
    typicalUse := "viagem"
    inputTokens := 1000000
    outputTokens := 2000000 }

def exFile1 : FileUpload :=
  { filename := "111-aaa.jpg", originalname := "ferias.jpg",
    mimetype := "image/jpeg", size := 100 }

def exFile2 : FileUpload :=
  { filename := "222-bbb.pdf", originalname := "contrato.pdf",
    mimetype := "application/pdf", size := 200 }

def exEnv : NameEnv := { randIdx := 0, date := "2026-01-01", time := "123456" }

def exState : ServerState :=
  { storage := [], docs := [], costs := [], nextDocId := 1, nextCostId := 1,
    lastApiCost := none }

def exJobOk : FileJob := { file := exFile1, env := exEnv, outcome := .ok exAnalysis }

def exJobFail : FileJob :=
  { file := exFile2, env := exEnv
    outcome := .fail "API Key inválida ou sem permissões. Verifique sua GEMINI_API_KEY_AI no Google AI Studio." none }

/-! ## Claim C1 -/

/-- Claim C1 (amended): in a multi-file batch in which every file before the
failing one succeeds, the entire batch response is an error and the failing
file's stored file is deleted; however the Document rows already created for
the earlier items of the batch remain (one row per earlier item, with
consecutive ids), and every stored file other than the failing one — the
earlier items' files included — remains in storage.  (The original claim's
assertion that earlier items are rolled back is refuted by
`C1_counterexample`.) -/
theorem C1_batch_failure (st : ServerState) (pre : List FileJob) (bad : FileJob)
    (rest : List FileJob) (hpre : ∀ j ∈ pre, jobFails j = false)
    (hbad : jobFails bad = true) :
    resIsErr (handleUpload st (pre ++ bad :: rest)) = true ∧
    (resState (handleUpload st (pre ++ bad :: rest))).docs.map (fun r => r.id) =
      st.docs.map (fun r => r.id) ++ List.range' st.nextDocId pre.length ∧
    (resState (handleUpload st (pre ++ bad :: rest))).storage =
      (st.storage ++ (pre ++ bad :: rest).map (fun j => j.file.filename)).erase
        bad.file.filename := by
  unfold handleUpload
  exact uploadLoop_first_failure bad rest hbad pre _ [] hpre

/-- Claim C1, refutation of the rollback part as stated: a concrete batch of
two files whose second file fails analysis yields an error response, yet the
Document row created for the first file and its stored file both remain. -/
theorem C1_counterexample :
    resIsErr (handleUpload exState [exJobOk, exJobFail]) = true ∧
    (resState (handleUpload exState [exJobOk, exJobFail])).docs.length = 1 ∧
    exFile1.filename ∈ (resState (handleUpload exState [exJobOk, exJobFail])).storage := by
  decide

/-- Witness for `C1_batch_failure` at a concrete two-file batch. -/
theorem C1_witness :
    resIsErr (handleUpload exState ([exJobOk] ++ exJobFail :: [])) = true ∧
    (resState (handleUpload exState ([exJobOk] ++ exJobFail :: []))).docs.map
        (fun r => r.id) =
      exState.docs.map (fun r => r.id) ++ List.range' exState.nextDocId 1 ∧
    (resState (handleUpload exState ([exJobOk] ++ exJobFail :: []))).storage =
      (exState.storage ++ ([exJobOk] ++ exJobFail :: []).map
        (fun j => j.file.filename)).erase exJobFail.file.filename :=
  C1_batch_failure exState [exJobOk] exJobFail [] (by decide) (by decide)

/-! ## Claim C2 -/

/-- Claim C2: for every single-file ingestion whose Analysis Client call
throws (any failure kind, with or without a pending cost payload), the upload
is rejected with the descriptive wrapped error, no Document row and no cost
row is created, and the stored file is gone from storage — no partial state
is persisted. -/
theorem C2_no_orphan_on_analysis_failure (st : ServerState) (f : FileUpload)
    (env : NameEnv) (msg : String) (lateCost : Option CostInfo)
    (hfresh : f.filename ∉ st.storage) :
    resIsErr (handleUpload st [⟨f, env, .fail msg lateCost⟩]) = true ∧
    resMsg (handleUpload st [⟨f, env, .fail msg lateCost⟩]) = some (analysisErrMsg msg) ∧
    (resState (handleUpload st [⟨f, env, .fail msg lateCost⟩])).docs = st.docs ∧
    (resState (handleUpload st [⟨f, env, .fail msg lateCost⟩])).costs = st.costs ∧
    (resState (handleUpload st [⟨f, env, .fail msg lateCost⟩])).storage = st.storage ∧
    f.filename ∉ (resState (handleUpload st [⟨f, env, .fail msg lateCost⟩])).storage := by
  have hst : (st.storage ++ [f.filename]).erase f.filename = st.storage := by
    rw [List.erase_append_right _ hfresh, List.erase_cons_head, List.append_nil]
  unfold handleUpload
  simp only [List.map, uploadLoop, processFile_fail]
  cases lateCost <;>
    simp_all [resIsErr, resMsg, resState, hst]

/-- Witness for `C2_no_orphan_on_analysis_failure`: a missing-credentials
failure on a fresh one-file upload. -/
theorem C2_witness :
    resIsErr (handleUpload exState
      [⟨exFile2, exEnv, .fail "GEMINI_API_KEY_AI não configurada" none⟩]) = true ∧
    (resState (handleUpload exState
      [⟨exFile2, exEnv, .fail "GEMINI_API_KEY_AI não configurada" none⟩])).docs =
      exState.docs ∧
    exFile2.filename ∉ (resState (handleUpload exState
      [⟨exFile2, exEnv, .fail "GEMINI_API_KEY_AI não configurada" none⟩])).storage := by
  have h := C2_no_orphan_on_analysis_failure exState exFile2 exEnv
    "GEMINI_API_KEY_AI não configurada" none (by decide)
  exact ⟨h.1, h.2.2.1, h.2.2.2.2.2⟩

/-! ## Claim C3 -/

/-- A Gemini analysis whose 25 keywords contain only one non-empty entry. -/
def c3Analysis : AnalysisOut :=
  { description := "passaporte"
    keywords := "passaporte" :: List.replicate 24 ""
    documentType := "passaporte"
    country := none
    typicalUse := ""
    inputTokens := 0
    outputTokens := 0 }

/-- Claim C3, refutation as stated: a Gemini response with 25 keywords of
which 24 are empty strings has only one non-empty entry (far fewer than 20),
yet the upload is accepted and a Document row is created — the validation
counts entries, not non-empty entries. -/
theorem C3_counterexample :
    ((analyzedKeywords c3Analysis).filter (fun k => !(strTrim k == ""))).length = 1 ∧
    resIsErr (handleUpload exState [⟨exFile1, exEnv, .ok c3Analysis⟩]) = false ∧
    (resState (handleUpload exState [⟨exFile1, exEnv, .ok c3Analysis⟩])).docs.length = 1 := by
  decide

/-- Claim C3 (amended): a single-file upload whose analysis succeeds is
accepted iff the expanded keyword list has at least 20 entries of which at
least one is non-blank; on rejection the stored file is removed and no
Document row is created, and on acceptance exactly one new Document row is
created. -/
theorem C3_keyword_validation (st : ServerState) (f : FileUpload) (env : NameEnv)
    (a : AnalysisOut) (hfresh : f.filename ∉ st.storage) :
    (resIsErr (handleUpload st [⟨f, env, .ok a⟩]) = false ↔
      20 ≤ (analyzedKeywords a).length ∧ ∃ k ∈ analyzedKeywords a, strTrim k ≠ "") ∧
    (resIsErr (handleUpload st [⟨f, env, .ok a⟩]) = true →
      (resState (handleUpload st [⟨f, env, .ok a⟩])).docs = st.docs ∧
      (resState (handleUpload st [⟨f, env, .ok a⟩])).storage = st.storage) ∧
    (resIsErr (handleUpload st [⟨f, env, .ok a⟩]) = false →
      (resState (handleUpload st [⟨f, env, .ok a⟩])).docs.map (fun r => r.id) =
        st.docs.map (fun r => r.id) ++ [st.nextDocId]) := by
  have hst : (st.storage ++ [f.filename]).erase f.filename = st.storage := by
    rw [List.erase_append_right _ hfresh, List.erase_cons_head, List.append_nil]
  have hvk : validKeywords (analyzedKeywords a) = true ↔
      20 ≤ (analyzedKeywords a).length ∧ ∃ k ∈ analyzedKeywords a, strTrim k ≠ "" := by
    simp [validKeywords, List.any_eq_true]
  by_cases hv : validKeywords (analyzedKeywords a) = true
  · unfold handleUpload
    simp only [List.map, uploadLoop,
      processFile_ok_valid _ f env a hv]
    simp [resIsErr, resState, hvk.mp hv, uploadRow]
  · have hv' : validKeywords (analyzedKeywords a) = false := by
      simpa using hv
    unfold handleUpload
    simp only [List.map, uploadLoop,
      processFile_ok_invalid _ f env a hv']
    simp only [resIsErr, resState]
    refine ⟨?_, fun _ => ⟨by trivial, by simpa using hst⟩, fun h => by simp at h⟩
    simp only [Bool.true_eq_false, false_iff]
    intro hcontra
    exact hv (hvk.mpr hcontra)

/-- Witness for `C3_keyword_validation`: the valid 20-keyword upload passes. -/
theorem C3_witness :
    resIsErr (handleUpload exState [⟨exFile1, exEnv, .ok exAnalysis⟩]) = false :=
  (C3_keyword_validation exState exFile1 exEnv exAnalysis (by decide)).1.mpr (by decide)

/-! ## Claim C4 -/

/-- Claim C4: the keyword expansion agrees with the §4.2 contract on every
input pair.  A list of at least 20 keywords is returned unchanged except for
the 30-entry cap; otherwise the category terms selected by substring match on
the lower-cased document type followed by the generic terms are appended in
order, skipping candidates whose lower-cased form is already a substring of an
existing keyword, stopping at 20 entries or pool exhaustion
(`expandKeywordsSpec` is that algorithm written from the spec's words).
Determinism is immediate: `expandKeywords` is a pure function of the pair. -/
theorem C4_expansion_contract (ks : List String) (t : String) :
    expandKeywords ks t = expandKeywordsSpec ks t ∧
    (20 ≤ ks.length → expandKeywords ks t = ks.take 30) := by
  refine ⟨expandKeywords_eq_spec ks t, fun h => ?_⟩
  have hlt : ¬ ks.length < 20 := by omega
  simp [expandKeywords, hlt]

/-- Witness for `C4_expansion_contract`: a 25-entry list is truncated to
itself (under 30 entries) and matches the spec algorithm. -/
theorem C4_witness :
    expandKeywords (List.replicate 25 "x") "contrato" =
      expandKeywordsSpec (List.replicate 25 "x") "contrato" ∧
    expandKeywords (List.replicate 25 "x") "contrato" =
      (List.replicate 25 "x").take 30 :=
  ⟨(C4_expansion_contract (List.replicate 25 "x") "contrato").1,
   (C4_expansion_contract (List.replicate 25 "x") "contrato").2 (by decide)⟩

/-! ## Claim C7 -/

/-- Claim C7: whenever the Analysis Client call of a search fails (missing
key, thrown call or unparseable output, all modelled by the `none` oracle),
the caller-visible interpretation has an empty `matchingDocIds`, an empty
(caller-normalised `interpretation.documents || []`) required-document list,
and `searchTerms` equal to the lower-cased query split on whitespace with
tokens of length at most 2 discarded.  The degraded path is a total function:
it never raises to the search caller. -/
theorem C7_degraded_interpretation (q : String) :
    (interpretSearch q none).matchingDocIds = some [] ∧
    ((interpretSearch q none).documents).getD [] = [] ∧
    (interpretSearch q none).searchTerms =
      some ((strSplit (lowerStr q) (fun c => c.isWhitespace)).filter
        (fun t => 2 < t.length)) :=
  ⟨rfl, rfl, rfl⟩

/-! ## Claim C5 -/

/-- Claim C5: when the interpretation carries a non-empty id list, the result
set is exactly the stored documents whose id is in that list (absent ids are
silently ignored), the most-recent-first order of the corpus is preserved,
and the keyword/description fallback is never consulted: the result only
depends on the id list, whatever the search terms would have matched. -/
theorem C5_id_priority (docs : List DocRow) (q : String) (it : Interp)
    (ids : List ℕ) (hids : it.matchingDocIds = some ids) (hne : ids ≠ [])
    (hsorted : docs.Pairwise createdDesc) :
    (∀ d, d ∈ resolveSearch docs q it ↔ d ∈ docs ∧ d.id ∈ ids) ∧
    (resolveSearch docs q it).Pairwise createdDesc ∧
    (∀ q2 it2, it2.matchingDocIds = some ids →
      resolveSearch docs q2 it2 = resolveSearch docs q it) := by
  have hemp : ids.isEmpty = false := by
    cases ids with
    | nil => exact absurd rfl hne
    | cons a as => rfl
  have hres : resolveSearch docs q it = docs.filter (fun d => decide (d.id ∈ ids)) := by
    simp [resolveSearch, hids, hemp]
  refine ⟨?_, ?_, ?_⟩
  · intro d
    rw [hres]
    simp [List.mem_filter]
  · rw [hres]
    exact hsorted.filter _
  · intro q2 it2 h2
    rw [hres]
    simp [resolveSearch, h2, hemp]

/-- Two seeded documents the interpreter points at by id. -/
def exDocA : DocRow :=
  { id := 2, filename := "a.png", originalname := "imagem-a.png",
    mimetype := "image/png", size := 1, created_at := 5,
    ai_description := "alpha", ai_keywords := "passaporte, viagem",
    ai_document_type := "passaporte", ai_country := none, ai_typical_use := "" }

def exDocB : DocRow :=
  { id := 5, filename := "b.png", originalname := "imagem-b.png",
    mimetype := "image/png", size := 1, created_at := 4,
    ai_description := "beta", ai_keywords := "rg, identidade",
    ai_document_type := "rg", ai_country := none, ai_typical_use := "" }

/-- A third document that the keyword fallback would also match. -/
def exDocC : DocRow :=
  { id := 9, filename := "c.png", originalname := "imagem-c.png",
    mimetype := "image/png", size := 1, created_at := 3,
    ai_description := "gamma", ai_keywords := "passaporte",
    ai_document_type := "passaporte", ai_country := none, ai_typical_use := "" }

def exCorpus : List DocRow := [exDocA, exDocB, exDocC]

def exInterpIds : Interp :=
  { topic := some "Viagem"
    searchTerms := some ["passaporte"]
    matchingDocIds := some [2, 5]
    documents := some [] }

/-- Witness for `C5_id_priority`: with `matchingDocIds = [2, 5]` the result
contains document 2 and not document 9, although the term `passaporte` would
match document 9 in the fallback. -/
theorem C5_witness :
    exDocA ∈ resolveSearch exCorpus "passaporte" exInterpIds ∧
    exDocC ∉ resolveSearch exCorpus "passaporte" exInterpIds := by
  have h := C5_id_priority exCorpus "passaporte" exInterpIds [2, 5] rfl
    (by decide) (by decide)
  refine ⟨(h.1 exDocA).mpr (by decide), fun hc => ?_⟩
  have h9 := ((h.1 exDocC).mp hc).2
  simp [exDocC] at h9

/-! ## Claim C6 -/

/-- A document whose display name contains `img-2023`, which the `_`
wildcard of an unescaped term `img_2023` matches. -/
def c6Doc : DocRow :=
  { id := 4, filename := "d.png", originalname := "img-2023.png",
    mimetype := "image/png", size := 1, created_at := 7,
    ai_description := "foto antiga", ai_keywords := "fotografia, arquivo",
    ai_document_type := "imagem geral", ai_country := none, ai_typical_use := "" }

/-- A fallback interpretation whose single term carries a live `_`
wildcard (e.g. a whitespace token of the user's own query). -/
def c6Interp : Interp :=
  { topic := some "fotos"
    searchTerms := some ["img_2023"]
    matchingDocIds := some []
    documents := some [] }

/-- Claim C6, refutation as stated: with the term `img_2023` the document
named `img-2023.png` is in the fallback result set — the unescaped `_` is a
live SQLite wildcard matching the `-` — although `img_2023` appears as a
case-insensitive substring in none of its four fields, so the claimed
substring-iff is false of the program. -/
theorem C6_counterexample :
    c6Doc ∈ resolveSearch [c6Doc] "img_2023" c6Interp ∧
    strIncludes (lowerStr c6Doc.ai_keywords) (lowerStr "img_2023") = false ∧
    strIncludes (lowerStr c6Doc.ai_description) (lowerStr "img_2023") = false ∧
    strIncludes (lowerStr c6Doc.ai_document_type) (lowerStr "img_2023") = false ∧
    strIncludes (lowerStr c6Doc.originalname) (lowerStr "img_2023") = false := by
  decide

/-- Claim C6 (amended): on the fallback path (no `matchingDocIds`, whether
absent or empty) with interpreter-supplied search terms, a document is in the
result set iff at least one term `LIKE`-matches — `'%' + term + '%'` with the
term's own `%`/`_` acting as live SQLite wildcards, other characters compared
ASCII-case-insensitively — one of its keywords, description, document type or
display name fields (the OR of all per-term, per-field predicates), and the
most-recent-first corpus order is preserved.  For every term containing
neither `%` nor `_`, the `LIKE` condition coincides with the
case-insensitive substring test the original claim states. -/
theorem C6_fallback_or_semantics (docs : List DocRow) (q : String) (it : Interp)
    (ts : List String)
    (hids : it.matchingDocIds = none ∨ it.matchingDocIds = some ([] : List ℕ))
    (hts : it.searchTerms = some ts)
    (hsorted : docs.Pairwise createdDesc) :
    (∀ d, d ∈ resolveSearch docs q it ↔
      d ∈ docs ∧ ∃ t ∈ ts,
        (sqlLike (sqlLikePattern t) d.ai_keywords.toList = true ∨
         sqlLike (sqlLikePattern t) d.ai_description.toList = true ∨
         sqlLike (sqlLikePattern t) d.ai_document_type.toList = true ∨
         sqlLike (sqlLikePattern t) d.originalname.toList = true)) ∧
    (resolveSearch docs q it).Pairwise createdDesc ∧
    (∀ t s : String, '%' ∉ t.toList → '_' ∉ t.toList →
      sqlLike (sqlLikePattern t) s.toList = strIncludes (lowerStr s) (lowerStr t)) := by
  have hres : resolveSearch docs q it = fallbackSearch docs ts := by
    rcases hids with h | h <;> simp [resolveSearch, h, hts]
  refine ⟨?_, ?_, fun t s hp hu => sqlLike_pattern_noWild t s hp hu⟩
  · intro d
    rw [hres]
    unfold fallbackSearch
    by_cases hemp : ts.isEmpty
    · have : ts = [] := List.isEmpty_iff.mp hemp
      subst this
      simp
    · rw [if_neg hemp]
      simp [List.mem_filter, List.any_eq_true, likeMatch, Bool.or_eq_true,
        and_congr_right_iff, or_assoc]
  · rw [hres]
    unfold fallbackSearch
    by_cases hemp : ts.isEmpty
    · rw [if_pos hemp]; exact List.Pairwise.nil
    · rw [if_neg hemp]; exact hsorted.filter _

/-- An interpretation whose id list is empty, forcing the fallback. -/
def exInterpFallback : Interp :=
  { topic := some "Viagem"
    searchTerms := some ["alpha", "beta"]
    matchingDocIds := some []
    documents := some [] }

/-- Witness for `C6_fallback_or_semantics`: with wildcard-free terms `alpha`
and `beta`, document 5 (description `beta`) matches and document 9
(description `gamma`, keywords `passaporte`) does not; and on the term
`beta` the `LIKE` condition agrees with the substring test. -/
theorem C6_witness :
    exDocB ∈ resolveSearch exCorpus "alpha beta" exInterpFallback ∧
    exDocC ∉ resolveSearch exCorpus "alpha beta" exInterpFallback ∧
    sqlLike (sqlLikePattern "beta") "Beta docs".toList =
      strIncludes (lowerStr "Beta docs") (lowerStr "beta") := by
  have h := C6_fallback_or_semantics exCorpus "alpha beta" exInterpFallback
    ["alpha", "beta"] (Or.inr rfl) rfl (by decide)
  refine ⟨(h.1 exDocB).mpr ⟨by decide, "beta", by decide, by decide⟩, fun hc => ?_,
    h.2.2 "beta" "Beta docs" (by decide) (by decide)⟩
  have hm := ((h.1 exDocC).mp hc).2
  revert hm
  decide

/-! ## Claim C8 -/

/-- Claim C8: a successfully persisted upload inserts exactly one cost row,
tagged with the analysis operation type (the code string `image_analysis`),
whose `operation_id` is the id of the Document row the same iteration just
created, and whose USD cost is
`inputTokens * pricePerInputToken + outputTokens * pricePerOutputToken` from
the static pricing table; the table lookup falls back to the
`gemini-2.5-flash` default entry for unknown models.  (`analyzeImage` always
reports usage counters on success — absent metadata is defaulted to 0 — so
the cost row is always written for a persisted upload.) -/
theorem C8_cost_record (st : ServerState) (f : FileUpload) (env : NameEnv)
    (a : AnalysisOut) (hvalid : validKeywords (analyzedKeywords a) = true) :
    stepIsPersisted (processFile st ⟨f, env, .ok a⟩) = true ∧
    (stepState (processFile st ⟨f, env, .ok a⟩)).docs.map (fun r => r.id) =
      st.docs.map (fun r => r.id) ++ [st.nextDocId] ∧
    (stepState (processFile st ⟨f, env, .ok a⟩)).costs = st.costs ++
      [{ id := st.nextCostId
         operation_type := "image_analysis"
         operation_id := some st.nextDocId
         input_tokens := a.inputTokens
         output_tokens := a.outputTokens
         cost_usd := a.inputTokens * (pricingFor "gemini-2.5-flash").1 +
           a.outputTokens * (pricingFor "gemini-2.5-flash").2
         cost_brl := (a.inputTokens * (pricingFor "gemini-2.5-flash").1 +
           a.outputTokens * (pricingFor "gemini-2.5-flash").2) * USD_TO_BRL
         model := "gemini-2.5-flash" }] ∧
    (∀ m, PRICING.lookup m = none →
      pricingFor m = pricingFor "gemini-2.5-flash") := by
  rw [processFile_ok_valid st f env a hvalid]
  refine ⟨rfl, by simp [stepState, uploadRow], ?_, ?_⟩
  · simp [stepState, uploadCostRow, analysisCostInfo, calculateCost]
  · intro m hm
    unfold pricingFor
    rw [hm]
    rfl

/-- Witness for `C8_cost_record`: the 20-keyword upload with one million
input tokens and two million output tokens yields one `image_analysis` cost
row bound to the new Document id. -/
theorem C8_witness :
    stepIsPersisted (processFile exState ⟨exFile1, exEnv, .ok exAnalysis⟩) = true ∧
    (stepState (processFile exState ⟨exFile1, exEnv, .ok exAnalysis⟩)).costs.map
        (fun c => (c.operation_type, c.operation_id, c.cost_usd)) =
      [("image_analysis", some 1, 1000000 * (pricingFor "gemini-2.5-flash").1 +
        2000000 * (pricingFor "gemini-2.5-flash").2)] := by
  have h := C8_cost_record exState exFile1 exEnv exAnalysis (by decide)
  refine ⟨h.1, ?_⟩
  rw [h.2.2.1]
  rfl

/-! ## Claim C9 -/

/-- The cost payload of a parse failure that happened after
`generateContent` had already reported usage. -/
def c9Cost : CostInfo :=
  { inputTokens := 7, outputTokens := 3, costUSD := 1 / 2, costBRL := 5 / 2,
    model := "gemini-2.5-flash" }

/-- Claim C9, refutation as stated: the usage/cost data is NOT threaded
explicitly through the request's call chain — `analyzeImage` stores it in the
process-wide slot `global.lastApiCost`.  Concretely, after an upload whose
Gemini call reported usage and then failed to parse, the request's cost
payload is still sitting in the shared slot of the server state. -/
theorem C9_counterexample :
    (resState (handleUpload exState
      [⟨exFile1, exEnv, .fail "Unexpected token" (some c9Cost)⟩])).lastApiCost =
      some c9Cost := by
  rfl

/-- Claim C9 (amended): the usage/cost data travels through the process-wide
slot `global.lastApiCost`, not through the call chain: the Analysis Client
wrapper writes the slot (a late failure leaves the request's payload in the
shared slot), and the upload handler's read-and-clear empties it; in the
sequential (non-interleaved) execution modelled here the cost row recorded
for a persisted upload is the one computed from that same request's token
usage. -/
theorem C9_shared_slot (st : ServerState) (f : FileUpload) (env : NameEnv)
    (msg : String) (c : CostInfo) (a : AnalysisOut)
    (hvalid : validKeywords (analyzedKeywords a) = true) :
    (resState (handleUpload st [⟨f, env, .fail msg (some c)⟩])).lastApiCost =
      some c ∧
    (stepState (processFile st ⟨f, env, .ok a⟩)).lastApiCost = none ∧
    (stepState (processFile st ⟨f, env, .ok a⟩)).costs =
      st.costs ++ [uploadCostRow st a] := by
  refine ⟨?_, ?_, ?_⟩
  · unfold handleUpload
    simp only [List.map, uploadLoop, processFile_fail]
    rfl
  · rw [processFile_ok_valid st f env a hvalid]
    rfl
  · rw [processFile_ok_valid st f env a hvalid]
    rfl

/-- Witness for `C9_shared_slot` at the concrete example data. -/
theorem C9_witness :
    (resState (handleUpload exState
      [⟨exFile2, exEnv, .fail "SyntaxError" (some c9Cost)⟩])).lastApiCost =
      some c9Cost ∧
    (stepState (processFile exState ⟨exFile1, exEnv, .ok exAnalysis⟩)).lastApiCost =
      none :=
  ⟨(C9_shared_slot exState exFile2 exEnv "SyntaxError" c9Cost exAnalysis
      (by decide)).1,
   (C9_shared_slot exState exFile2 exEnv "SyntaxError" c9Cost exAnalysis
      (by decide)).2.1⟩

/-! ## Claim C10 -/

lemma typeKeywordList_length_pos (mt : String) : 0 < (typeKeywordList mt).length := by
  unfold typeKeywordList
  split_ifs <;> simp

lemma getD_mod_mem (l : List String) (i : ℕ) (d : String) (h : 0 < l.length) :
    l.getD (i % l.length) d ∈ l := by
  have hlt : i % l.length < l.length := Nat.mod_lt _ h
  rw [List.getD_eq_getElem?_getD, List.getElem?_eq_getElem hlt, Option.getD_some]
  exact List.getElem_mem hlt

lemma generateAIName_rand_ne (orig mt dt tm : String) :
    generateAIName orig mt ⟨0, dt, tm⟩ ≠ generateAIName orig mt ⟨1, dt, tm⟩ := by
  intro h
  have hlen := congrArg String.length h
  unfold generateAIName typeKeywordList at hlen
  split_ifs at hlen <;>
    simp [String.length_append] at hlen <;>
    exact absurd hlen (by decide)

/-- The uploaded file of the C10 counterexample: the user happened to name it
exactly in the server's generated shape. -/
def c10File : FileUpload :=
  { filename := "123-456.jpg", originalname := "foto-2026-01-01-123456.jpg",
    mimetype := "image/jpeg", size := 10 }

/-- Claim C10, refutation of the "is never the uploaded file's original
name" part as stated: when the random draw picks `foto` and the date and
time stamps are `2026-01-01` and `123456`, uploading a file the user named
`foto-2026-01-01-123456.jpg` persists a display name equal to the user's
file name. -/
theorem C10_counterexample :
    (resImages (handleUpload exState [⟨c10File, exEnv, .ok exAnalysis⟩])).map
        (fun r => r.originalname) = [c10File.originalname] := by
  decide

/-- Claim C10 (amended): the persisted display name of every ingested file is
the server-generated `generateAIName` output — of the shape
`<type-keyword>-<date>-<time><ext>` with the keyword drawn from the
per-mime-type word list and only the (lower-cased) extension taken from the
user's name — and a different random draw yields a different name for the
same upload, so the name is not determined by the upload alone; it can
coincide with the user's file name only when that name already has the
generated shape (see `C10_counterexample`). -/
theorem C10_generated_display_name (st : ServerState) (f : FileUpload)
    (env : NameEnv) (a : AnalysisOut)
    (hvalid : validKeywords (analyzedKeywords a) = true) :
    (stepRow (processFile st ⟨f, env, .ok a⟩)).map (fun r => r.originalname) =
      some (generateAIName f.originalname f.mimetype env) ∧
    (∃ kw ∈ typeKeywordList f.mimetype,
      generateAIName f.originalname f.mimetype env =
        kw ++ "-" ++ env.date ++ "-" ++ env.time ++ lowerStr (extname f.originalname)) ∧
    (∀ dt tm : String, generateAIName f.originalname f.mimetype ⟨0, dt, tm⟩ ≠
      generateAIName f.originalname f.mimetype ⟨1, dt, tm⟩) := by
  refine ⟨?_, ?_, fun dt tm => generateAIName_rand_ne _ _ dt tm⟩
  · rw [processFile_ok_valid st f env a hvalid]
    rfl
  · exact ⟨(typeKeywordList f.mimetype).getD
      (env.randIdx % (typeKeywordList f.mimetype).length) "imagem",
      getD_mod_mem _ _ _ (typeKeywordList_length_pos f.mimetype), rfl⟩

/-- Witness for `C10_generated_display_name` at the concrete example
upload. -/
theorem C10_witness :
    (stepRow (processFile exState ⟨exFile1, exEnv, .ok exAnalysis⟩)).map
        (fun r => r.originalname) =
      some (generateAIName exFile1.originalname exFile1.mimetype exEnv) ∧
    generateAIName exFile1.originalname exFile1.mimetype ⟨0, "2026-01-01", "123456"⟩ ≠
      generateAIName exFile1.originalname exFile1.mimetype ⟨1, "2026-01-01", "123456"⟩ :=
  ⟨(C10_generated_display_name exState exFile1 exEnv exAnalysis (by decide)).1,
   (C10_generated_display_name exState exFile1 exEnv exAnalysis
      (by decide)).2.2 "2026-01-01" "123456"⟩
